import Mathlib

/-
Verification of the reference-desk tally board (ReferenceTally.jsx).

The JavaScript source is shallowly embedded: the pure helpers
(convertToCSV, the weekly totals reduce, the CSV export record builder)
become Lean functions; the Firestore-backed operations (handleCount's
transaction, fetchWeeklySummary's query) become explicit state passing
over an association-list document store; React state updates become a
step function on an AppState record.
-/

namespace RefTally

/-- A JavaScript value as it occurs in the records this component builds:
either a string or an (integer) number. -/
inductive JSVal where
  | str : String → JSVal
  | num : Int → JSVal
deriving DecidableEq, Repr

/-- JavaScript string coercion of a possibly-missing object field, as done by
the source expression `('' + value)`: a missing field is `undefined`, whose
coercion is the text "undefined". -/
def jsString : Option JSVal → String
  | none => "undefined"
  | some (JSVal.str s) => s
  | some (JSVal.num n) => toString n

/-- One question category from QUESTION_TYPES (display-only fields omitted). -/
structure Category where
  id : String
  name : String
deriving DecidableEq, Repr

/-- The static category registry (ids and display names from the source). -/
def QUESTION_TYPES : List Category :=
  [ { id := "directional", name := "Directional" },
    { id := "quick_fact", name := "Quick Fact/Ready Ref." },
    { id := "procedural", name := "Policy/Procedural" },
    { id := "research", name := "Research/Complex" },
    { id := "technology", name := "Technology/Equip." } ]

/-- The ids of the registered categories. -/
def categoryIds : List String := QUESTION_TYPES.map Category.id

/-- Character-level embedding of `value.replace(/"/g, '""')`: every
double-quote character is replaced by two double-quote characters. -/
def escapeChars : List Char → List Char
  | [] => []
  | c :: cs => if c = '\"' then '\"' :: '\"' :: escapeChars cs else c :: escapeChars cs

/-- The string form of the quote-doubling replace. -/
def escapeQuotes (s : String) : String := String.mk (escapeChars s.data)

/-- A JavaScript object as a key-ordered list of fields. -/
abbrev JSRecord := List (String × JSVal)

/-- Field access `row[header]` (first binding wins; keys are unique here). -/
def getField (row : JSRecord) (k : String) : Option JSVal := row.lookup k

/-- One CSV cell: `"${('' + value).replace(/"/g, '""')}"`. -/
def csvField (v : Option JSVal) : String :=
  "\"" ++ escapeQuotes (jsString v) ++ "\""

/-- One CSV data row: the row's value for each header, quoted and joined by
commas. -/
def csvRow (headers : List String) (row : JSRecord) : String :=
  String.intercalate "," (headers.map (fun h => csvField (getField row h)))

/-- `convertToCSV`: empty input gives the empty string; otherwise the header
row is the (unquoted) keys of the first record joined by commas, followed by
one quoted data row per record, all joined by newlines. -/
def convertToCSV (data : List JSRecord) : String :=
  match data with
  | [] => ""
  | first :: _ =>
    let headers := first.map Prod.fst
    String.intercalate "\n"
      (String.intercalate "," headers :: data.map (fun row => csvRow headers row))

/-- A daily tally document: one possibly-missing count field per category id,
plus the metadata fields handleCount writes. -/
structure DailyDoc where
  counts : String → Option Nat
  createdAt : Option Nat
  updatedAt : Option Nat
  lastUpdatedBy : Option String
  date : Option String

/-- The `initialData` object: every registered category id mapped to 0, no
other field present. -/
def initialData : String → Option Nat :=
  fun c => if c ∈ categoryIds then some 0 else none

/-- The document `transaction.set` writes when no document exists for today:
`initialData` with the clicked category overridden to 1, plus creation
timestamp, actor id and the date string. -/
def createdDoc (typeId uid todayDate : String) (now : Nat) : DailyDoc :=
  { counts := fun c => if c = typeId then some 1 else initialData c,
    createdAt := some now,
    updatedAt := none,
    lastUpdatedBy := some uid,
    date := some todayDate }

/-- The `transaction.update` when the document exists: the clicked category is
incremented by 1 (a missing field counts as 0, as the store's increment
primitive does), and the update timestamp and actor are stamped. -/
def incrementedDoc (old : DailyDoc) (typeId uid : String) (now : Nat) : DailyDoc :=
  { old with
    counts := fun c =>
      if c = typeId then some ((old.counts c).getD 0 + 1) else old.counts c,
    lastUpdatedBy := some uid,
    updatedAt := some now }

/-- The remote collection `daily_ref_counts`, keyed by date string. -/
abbrev Store := List (String × DailyDoc)

/-- Point read of the document with a given id. -/
def getDoc (s : Store) (k : String) : Option DailyDoc := s.lookup k

/-- The whole-store effect of handleCount's transaction on success: create the
document for today if absent, else increment the clicked category in place. -/
def handleCountStore (s : Store) (todayDate typeId uid : String) (now : Nat) : Store :=
  match getDoc s todayDate with
  | none => s ++ [(todayDate, createdDoc typeId uid todayDate now)]
  | some old =>
    s.map (fun kv =>
      if kv.1 = todayDate then (todayDate, incrementedDoc old typeId uid now) else kv)

theorem lookup_update_self (s : Store) (d : String) (nd : DailyDoc)
    (hmem : (s.lookup d).isSome = true) :
    (s.map (fun kv => if kv.1 = d then (d, nd) else kv)).lookup d = some nd := by
  induction s with
  | nil => simp at hmem
  | cons hd tl ih =>
    obtain ⟨a, v⟩ := hd
    by_cases hda : a = d
    · subst hda
      simp
    · have hbeq : (d == a) = false := beq_false_of_ne (fun h => hda h.symm)
      simp only [List.map_cons, if_neg hda, List.lookup_cons, hbeq] at hmem ⊢
      exact ih hmem

theorem lookup_update_ne (s : Store) (d k : String) (nd : DailyDoc)
    (hk : k ≠ d) :
    (s.map (fun kv => if kv.1 = d then (d, nd) else kv)).lookup k = s.lookup k := by
  induction s with
  | nil => rfl
  | cons hd tl ih =>
    obtain ⟨a, v⟩ := hd
    by_cases hda : a = d
    · subst hda
      simp [List.lookup_cons, beq_false_of_ne hk, ih]
    · simp only [List.map_cons, if_neg hda, List.lookup_cons]
      cases hbeq : k == a with
      | true => rfl
      | false => exact ih

/-- C1: incrementing when no document exists for the date creates the document
with every category field 0 except the clicked one at 1, stamped with creation
time and actor; incrementing when the document exists adds exactly 1 to the
clicked category field, stamps update time and actor, and leaves every other
field unchanged; no other document is touched. -/
theorem c1_increment (s : Store) (d cid uid : String) (now : Nat)
    (hc : cid ∈ categoryIds) :
    (getDoc s d = none →
      getDoc (handleCountStore s d cid uid now) d = some (createdDoc cid uid d now) ∧
      (∀ c ∈ categoryIds,
        (createdDoc cid uid d now).counts c = some (if c = cid then 1 else 0)) ∧
      (createdDoc cid uid d now).createdAt = some now ∧
      (createdDoc cid uid d now).lastUpdatedBy = some uid ∧
      (createdDoc cid uid d now).date = some d) ∧
    (∀ old, getDoc s d = some old →
      getDoc (handleCountStore s d cid uid now) d
          = some (incrementedDoc old cid uid now) ∧
      (incrementedDoc old cid uid now).counts cid
          = some ((old.counts cid).getD 0 + 1) ∧
      (∀ c, c ≠ cid → (incrementedDoc old cid uid now).counts c = old.counts c) ∧
      (incrementedDoc old cid uid now).updatedAt = some now ∧
      (incrementedDoc old cid uid now).lastUpdatedBy = some uid ∧
      (incrementedDoc old cid uid now).createdAt = old.createdAt ∧
      (incrementedDoc old cid uid now).date = old.date) ∧
    (∀ k, k ≠ d → getDoc (handleCountStore s d cid uid now) k = getDoc s k) := by
  refine ⟨fun habs => ?_, fun old hold => ?_, fun k hk => ?_⟩
  · have hred : handleCountStore s d cid uid now
        = s ++ [(d, createdDoc cid uid d now)] := by
      unfold handleCountStore
      rw [habs]
    refine ⟨?_, fun c hmem => ?_, rfl, rfl, rfl⟩
    · rw [hred]
      show (s ++ [(d, createdDoc cid uid d now)]).lookup d = _
      rw [List.lookup_append, show s.lookup d = none from habs, Option.none_or,
        List.lookup_cons_self]
    · by_cases hcc : c = cid
      · simp [createdDoc, hcc]
      · simp [createdDoc, hcc, initialData, hmem]
  · have hred : handleCountStore s d cid uid now
        = s.map (fun kv => if kv.1 = d then (d, incrementedDoc old cid uid now) else kv) := by
      unfold handleCountStore
      rw [hold]
    refine ⟨?_, by simp [incrementedDoc], fun c hcc => by simp [incrementedDoc, hcc],
      rfl, rfl, rfl, rfl⟩
    rw [hred]
    exact lookup_update_self s d _ (by rw [show s.lookup d = some old from hold]; rfl)
  · cases hget : getDoc s d with
    | none =>
      have hred : handleCountStore s d cid uid now
          = s ++ [(d, createdDoc cid uid d now)] := by
        unfold handleCountStore
        rw [hget]
      show getDoc (handleCountStore s d cid uid now) k = getDoc s k
      rw [hred]
      show (s ++ [(d, createdDoc cid uid d now)]).lookup k = s.lookup k
      rw [List.lookup_append]
      have hnone : ([(d, createdDoc cid uid d now)] : Store).lookup k = none := by
        simp [List.lookup_cons, beq_false_of_ne hk]
      rw [hnone, Option.or_none]
    | some old =>
      have hred : handleCountStore s d cid uid now
          = s.map (fun kv => if kv.1 = d then (d, incrementedDoc old cid uid now) else kv) := by
        unfold handleCountStore
        rw [hget]
      show getDoc (handleCountStore s d cid uid now) k = getDoc s k
      rw [hred]
      exact lookup_update_ne s d k _ hk

/-- C1 witness: concrete run on the empty store, then on the resulting store. -/
theorem c1_increment_witness :
    ("quick_fact" ∈ categoryIds) ∧
    (getDoc ([] : Store) "2024-01-01" = none →
      getDoc (handleCountStore [] "2024-01-01" "quick_fact" "u" 5) "2024-01-01"
          = some (createdDoc "quick_fact" "u" "2024-01-01" 5) ∧
      (∀ c ∈ categoryIds,
        (createdDoc "quick_fact" "u" "2024-01-01" 5).counts c
          = some (if c = "quick_fact" then 1 else 0)) ∧
      (createdDoc "quick_fact" "u" "2024-01-01" 5).createdAt = some 5 ∧
      (createdDoc "quick_fact" "u" "2024-01-01" 5).lastUpdatedBy = some "u" ∧
      (createdDoc "quick_fact" "u" "2024-01-01" 5).date = some "2024-01-01") ∧
    (∀ old, getDoc ([] : Store) "2024-01-01" = some old →
      getDoc (handleCountStore [] "2024-01-01" "quick_fact" "u" 5) "2024-01-01"
          = some (incrementedDoc old "quick_fact" "u" 5) ∧
      (incrementedDoc old "quick_fact" "u" 5).counts "quick_fact"
          = some ((old.counts "quick_fact").getD 0 + 1) ∧
      (∀ c, c ≠ "quick_fact" →
        (incrementedDoc old "quick_fact" "u" 5).counts c = old.counts c) ∧
      (incrementedDoc old "quick_fact" "u" 5).updatedAt = some 5 ∧
      (incrementedDoc old "quick_fact" "u" 5).lastUpdatedBy = some "u" ∧
      (incrementedDoc old "quick_fact" "u" 5).createdAt = old.createdAt ∧
      (incrementedDoc old "quick_fact" "u" 5).date = old.date) ∧
    (∀ k, k ≠ "2024-01-01" →
      getDoc (handleCountStore [] "2024-01-01" "quick_fact" "u" 5) k
        = getDoc ([] : Store) k) :=
  ⟨by decide, c1_increment [] "2024-01-01" "quick_fact" "u" 5 (by decide)⟩

/-- One element of the weeklySummary state: the date key plus the document's
possibly-missing category count fields. -/
structure WeekEntry where
  date : String
  counts : String → Option Nat

/-- `day[type.id] || 0`: a missing category field counts as 0. -/
def dayCount (e : WeekEntry) (cid : String) : Nat := (e.counts cid).getD 0

/-- The per-category sum of a field across a sequence of days. -/
def catSum (days : List WeekEntry) (cid : String) : Nat :=
  (days.map (fun e => dayCount e cid)).sum

/-- The accumulator of the weeklyTotals reduce: per-category fields start out
missing, grandTotal starts at 0. -/
structure WeekTotals where
  perCat : String → Option Nat
  grandTotal : Nat

/-- The body of the inner forEach: add the day's count for one category to
that category's running total and to the grand total. -/
def addType (e : WeekEntry) (t : WeekTotals) (ty : Category) : WeekTotals :=
  { perCat := fun k =>
      if k = ty.id then some ((t.perCat ty.id).getD 0 + dayCount e ty.id)
      else t.perCat k,
    grandTotal := t.grandTotal + dayCount e ty.id }

/-- One step of the outer reduce: fold the registry over one day. -/
def addDay (t : WeekTotals) (e : WeekEntry) : WeekTotals :=
  QUESTION_TYPES.foldl (addType e) t

/-- The `weeklyTotals` useMemo: reduce over the weekly summary starting from
`{grandTotal: 0}`. -/
def weeklyTotals (days : List WeekEntry) : WeekTotals :=
  days.foldl addDay { perCat := fun _ => none, grandTotal := 0 }

theorem sum_map_add_distrib {β : Type} (ys : List β) (f g : β → Nat) :
    (ys.map (fun y => f y + g y)).sum = (ys.map f).sum + (ys.map g).sum := by
  induction ys with
  | nil => rfl
  | cons y ys ih => simp [ih]; omega

theorem list_sum_comm {α β : Type} (xs : List α) (ys : List β) (f : α → β → Nat) :
    (xs.map (fun x => (ys.map (fun y => f x y)).sum)).sum
      = (ys.map (fun y => (xs.map (fun x => f x y)).sum)).sum := by
  induction xs with
  | nil => simp
  | cons x xs ih =>
    simp only [List.map_cons, List.sum_cons, ih, List.map_map]
    rw [← sum_map_add_distrib]

theorem addType_fold_grand (L : List Category) (e : WeekEntry) (t : WeekTotals) :
    (L.foldl (addType e) t).grandTotal
      = t.grandTotal + (L.map (fun ty => dayCount e ty.id)).sum := by
  induction L generalizing t with
  | nil => simp
  | cons ty L ih =>
    simp only [List.foldl_cons, List.map_cons, List.sum_cons, ih, addType]
    omega

theorem addType_fold_perCat_notMem (L : List Category) (e : WeekEntry)
    (t : WeekTotals) (k : String) (hk : k ∉ L.map Category.id) :
    (L.foldl (addType e) t).perCat k = t.perCat k := by
  induction L generalizing t with
  | nil => rfl
  | cons ty L ih =>
    simp only [List.map_cons, List.mem_cons, not_or] at hk
    simp only [List.foldl_cons, ih _ hk.2, addType, if_neg hk.1]

theorem addType_fold_perCat_mem (L : List Category) (e : WeekEntry)
    (t : WeekTotals) (k : String) (hnd : (L.map Category.id).Nodup)
    (hk : k ∈ L.map Category.id) :
    (L.foldl (addType e) t).perCat k = some ((t.perCat k).getD 0 + dayCount e k) := by
  induction L generalizing t with
  | nil => simp at hk
  | cons ty L ih =>
    simp only [List.map_cons, List.nodup_cons] at hnd
    rcases List.mem_cons.mp hk with heq | hmem
    · subst heq
      rw [List.foldl_cons,
        addType_fold_perCat_notMem L e _ ty.id hnd.1]
      simp [addType]
    · rw [List.foldl_cons, ih _ hnd.2 hmem]
      have hne : k ≠ ty.id := fun h => hnd.1 (h ▸ hmem)
      simp [addType, if_neg hne]

theorem catIds_nodup : (QUESTION_TYPES.map Category.id).Nodup := by decide

theorem addDay_fold_grand (days : List WeekEntry) (t : WeekTotals) :
    (days.foldl addDay t).grandTotal
      = t.grandTotal
        + (days.map (fun e => (QUESTION_TYPES.map (fun ty => dayCount e ty.id)).sum)).sum := by
  induction days generalizing t with
  | nil => simp
  | cons e days ih =>
    simp only [List.foldl_cons, List.map_cons, List.sum_cons, ih, addDay,
      addType_fold_grand]
    omega

theorem addDay_fold_perCat (days : List WeekEntry) (t : WeekTotals) (k : String)
    (hk : k ∈ QUESTION_TYPES.map Category.id) :
    ((days.foldl addDay t).perCat k).getD 0 = (t.perCat k).getD 0 + catSum days k := by
  induction days generalizing t with
  | nil => simp [catSum]
  | cons e days ih =>
    simp only [List.foldl_cons, ih, addDay,
      addType_fold_perCat_mem QUESTION_TYPES e t k catIds_nodup hk]
    simp [catSum]
    omega

theorem weeklyTotals_perCat (days : List WeekEntry) (k : String)
    (hk : k ∈ QUESTION_TYPES.map Category.id) :
    ((weeklyTotals days).perCat k).getD 0 = catSum days k := by
  unfold weeklyTotals
  rw [addDay_fold_perCat days _ k hk]
  simp

theorem weeklyTotals_grand (days : List WeekEntry) :
    (weeklyTotals days).grandTotal
      = (days.map (fun e => (QUESTION_TYPES.map (fun ty => dayCount e ty.id)).sum)).sum := by
  unfold weeklyTotals
  rw [addDay_fold_grand]
  simp

/-- C2: the grand total equals the sum of the per-category totals, and each
per-category total is the sum of that category's field across all documents
of the weekly sequence (missing fields count as 0). -/
theorem c2_totals (days : List WeekEntry) :
    (weeklyTotals days).grandTotal
      = (QUESTION_TYPES.map
          (fun ty => (((weeklyTotals days).perCat ty.id)).getD 0)).sum ∧
    QUESTION_TYPES.map (fun ty => (((weeklyTotals days).perCat ty.id)).getD 0)
      = QUESTION_TYPES.map (fun ty => catSum days ty.id) := by
  have hmap : QUESTION_TYPES.map (fun ty => (((weeklyTotals days).perCat ty.id)).getD 0)
      = QUESTION_TYPES.map (fun ty => catSum days ty.id) := by
    apply List.map_congr_left
    intro ty hty
    exact weeklyTotals_perCat days ty.id (List.mem_map_of_mem Category.id hty)
  refine ⟨?_, hmap⟩
  rw [hmap, weeklyTotals_grand]
  unfold catSum
  exact list_sum_comm days QUESTION_TYPES (fun e ty => dayCount e ty.id)

/-- A document of the remote collection as the weekly query sees it: its id
and its data. -/
structure StoredDoc where
  id : String
  data : DailyDoc

/-- `{date: doc.id, ...doc.data()}`: the spread comes second, so a `date`
field present in the data overrides the document id; the id is used only when
the data has no date field. -/
def toEntry (d : StoredDoc) : WeekEntry :=
  { date := (d.data.date).getD d.id, counts := d.data.counts }

/-- Sort key of the query: the document's `date` field (the query drops
documents without one, so the default is never compared). -/
def docDate (d : StoredDoc) : String := (d.data.date).getD ""

/-- The descending order of `orderBy('date', 'desc')`. -/
def docGE (a b : StoredDoc) : Prop := docDate b ≤ docDate a

/-- The ascending order of `weeklyData.sort((a, b) => a.date.localeCompare(b.date))`. -/
def entryLE (a b : WeekEntry) : Prop := a.date ≤ b.date

instance : DecidableRel docGE :=
  fun a b => inferInstanceAs (Decidable (docDate b ≤ docDate a))

instance : DecidableRel entryLE :=
  fun a b => inferInstanceAs (Decidable (a.date ≤ b.date))

instance : IsTotal StoredDoc docGE :=
  ⟨fun a b => le_total (docDate b) (docDate a)⟩

instance : IsTrans StoredDoc docGE :=
  ⟨fun _ _ _ h1 h2 => le_trans h2 h1⟩

instance : IsTotal WeekEntry entryLE :=
  ⟨fun a b => le_total a.date b.date⟩

instance : IsTrans WeekEntry entryLE :=
  ⟨fun _ _ _ h1 h2 => le_trans h1 h2⟩

/-- `fetchWeeklySummary`'s successful query and post-processing: order the
collection by the date field descending (documents lacking the field are not
returned by such a query), keep at most 7, build the `{date, ...data}`
entries, and re-sort ascending. The `oneWeekAgoId` cutoff is computed by the
source but never put into the query, so it is an unused argument here too. -/
def fetchRecentDays (oneWeekAgoId : String) (docs : List StoredDoc) : List WeekEntry :=
  List.insertionSort entryLE
    (((List.insertionSort docGE
        (docs.filter (fun d => (d.data.date).isSome))).take 7).map toEntry)

/-- C3: on a store of fewer than 7 daily documents (each carrying its date
field, as every document this app creates does), the weekly fetch returns
exactly the existing documents, sorted ascending by date string, with no
synthetic padding. -/
theorem c3_fetch_small (owa : String) (docs : List StoredDoc)
    (hlen : docs.length < 7)
    (hdate : ∀ d ∈ docs, (d.data.date).isSome = true) :
    (fetchRecentDays owa docs).Perm (docs.map toEntry) ∧
    List.Sorted entryLE (fetchRecentDays owa docs) := by
  unfold fetchRecentDays
  have hfil : docs.filter (fun d => (d.data.date).isSome) = docs :=
    List.filter_eq_self.mpr hdate
  rw [hfil]
  have hlen2 : (List.insertionSort docGE docs).length = docs.length :=
    (List.perm_insertionSort docGE docs).length_eq
  have htake : (List.insertionSort docGE docs).take 7 = List.insertionSort docGE docs :=
    List.take_of_length_le (by omega)
  rw [htake]
  constructor
  · exact (List.perm_insertionSort entryLE _).trans
      ((List.perm_insertionSort docGE docs).map toEntry)
  · exact List.sorted_insertionSort entryLE _

/-- A bare daily document carrying only a date field, for concrete runs. -/
def bareDoc (dt : String) : DailyDoc :=
  { counts := fun _ => none, createdAt := none, updatedAt := none,
    lastUpdatedBy := none, date := some dt }

/-- A concrete store of three out-of-order daily documents. -/
def sampleDocs : List StoredDoc :=
  [ { id := "2024-01-03", data := bareDoc "2024-01-03" },
    { id := "2024-01-01", data := bareDoc "2024-01-01" },
    { id := "2024-01-02", data := bareDoc "2024-01-02" } ]

/-- C3 witness: the three-document store. -/
theorem c3_fetch_small_witness :
    (fetchRecentDays "2023-12-28" sampleDocs).Perm (sampleDocs.map toEntry) ∧
    List.Sorted entryLE (fetchRecentDays "2023-12-28" sampleDocs) :=
  c3_fetch_small "2023-12-28" sampleDocs (by decide) (by decide)

/-- A document dated decades before any plausible cutoff. -/
def oldDoc : StoredDoc := { id := "2000-01-01", data := bareDoc "2000-01-01" }

/-- C9: the computed one-week-ago cutoff never reaches the query — the result
is the same for any cutoff value; at most 7 entries come back; and a store
whose only document is dated 2000-01-01 still has it returned when today is
in 2026, even though that date is far below the cutoff. -/
theorem c9_cutoff_unused :
    (∀ a b docs, fetchRecentDays a docs = fetchRecentDays b docs) ∧
    (∀ a docs, (fetchRecentDays a docs).length ≤ 7) ∧
    (fetchRecentDays "2026-10-05" [oldDoc]).map WeekEntry.date = ["2000-01-01"] ∧
    ("2000-01-01" : String) < "2026-10-05" := by
  refine ⟨fun a b docs => rfl, fun a docs => ?_, by decide,
    String.lt_iff_toList_lt.mpr (by decide)⟩
  unfold fetchRecentDays
  rw [(List.perm_insertionSort entryLE _).length_eq, List.length_map,
    List.length_take]
  omega

/-- C4, as stated, is false: the header row is not quoted by the code. -/
theorem c4_header_not_quoted :
    convertToCSV [[("a", JSVal.num 1), ("b", JSVal.num 2)]]
      ≠ "\"a\",\"b\"\n\"1\",\"2\"" := by
  decide

/-- C4 (amended): `convertToCSV` on the empty list is the empty string, and on
the single record with a=1, b=2 it yields an unquoted header line `a,b`
followed by the quoted data line. -/
theorem c4_csv_shape :
    convertToCSV [] = "" ∧
    convertToCSV [[("a", JSVal.num 1), ("b", JSVal.num 2)]]
      = "a,b\n\"1\",\"2\"" := by
  constructor
  · rfl
  · decide

/-- C7: every embedded double quote of a string value is doubled (each quote
occurrence becomes two, the other characters pass through untouched), and the
whole value is wrapped in double quotes; on the spec's example the formatter
emits the expected escaped cell. -/
theorem c7_quote_escaping :
    (∀ u v : List Char, '\"' ∉ u →
      escapeChars (u ++ '\"' :: v) = u ++ '\"' :: '\"' :: escapeChars v) ∧
    (∀ s : String, csvField (some (JSVal.str s)) = "\"" ++ escapeQuotes s ++ "\"") ∧
    convertToCSV [[("a", JSVal.str "he said \"hi\"")]]
      = "a\n\"he said \"\"hi\"\"\"" := by
  refine ⟨?_, fun s => rfl, by decide⟩
  intro u v hu
  induction u with
  | nil => simp [escapeChars]
  | cons c u ih =>
    have hc : c ≠ '\"' := fun h => hu (h ▸ List.mem_cons_self c u)
    have hu' : '\"' ∉ u := fun h => hu (List.mem_cons_of_mem c h)
    simp [escapeChars, if_neg hc, ih hu']

/-- C7 witness: a quote embedded after two plain characters is doubled. -/
theorem c7_quote_escaping_witness :
    ('\"' ∉ ([ 'h', 'i' ] : List Char)) ∧
    escapeChars ([ 'h', 'i' ] ++ '\"' :: [])
      = [ 'h', 'i' ] ++ '\"' :: '\"' :: escapeChars [] :=
  ⟨by decide, c7_quote_escaping.1 [ 'h', 'i' ] [] (by decide)⟩

/-- C10: the formatter is total on non-uniform records — a row lacking one of
the header keys renders the quoted string coercion of `undefined` in that
column, and an end-to-end run on a two-record non-uniform array shows it. -/
theorem c10_missing_field (hs1 hs2 : List String) (row : JSRecord) (h : String)
    (hmiss : getField row h = none) :
    csvRow (hs1 ++ h :: hs2) row
      = String.intercalate ","
          (hs1.map (fun k => csvField (getField row k))
            ++ "\"undefined\"" :: hs2.map (fun k => csvField (getField row k))) ∧
    convertToCSV [[("a", JSVal.num 1), ("b", JSVal.num 2)], [("a", JSVal.num 3)]]
      = "a,b\n\"1\",\"2\"\n\"3\",\"undefined\"" := by
  constructor
  · unfold csvRow
    rw [List.map_append, List.map_cons, hmiss]
    have hval : csvField (none : Option JSVal) = "\"undefined\"" := by decide
    rw [hval]
  · decide

/-- C10 witness: the record lacking key b renders a quoted undefined cell. -/
theorem c10_missing_field_witness :
    getField ([("a", JSVal.num 3)] : JSRecord) "b" = none ∧
    (csvRow (["a"] ++ "b" :: []) [("a", JSVal.num 3)]
      = String.intercalate ","
          ((["a"] : List String).map
              (fun k => csvField (getField ([("a", JSVal.num 3)] : JSRecord) k))
            ++ "\"undefined\""
              :: ([] : List String).map
                (fun k => csvField (getField ([("a", JSVal.num 3)] : JSRecord) k))) ∧
     convertToCSV [[("a", JSVal.num 1), ("b", JSVal.num 2)], [("a", JSVal.num 3)]]
      = "a,b\n\"1\",\"2\"\n\"3\",\"undefined\"") :=
  ⟨by decide, c10_missing_field ["a"] [] [("a", JSVal.num 3)] "b" (by decide)⟩

/-- The component state the two handlers read and write. -/
structure AppState where
  db : Bool
  isAuthReady : Bool
  userId : String
  error : Option String
  weeklySummary : List WeekEntry
  loading : Bool
  store : Store

/-- `handleCount` as a state step. `txOk` tells whether the transaction
committed: with no database connection only the error is set; on commit the
store is updated and the previous error cleared; on failure only the
most-recent error message is replaced. -/
def handleCountStep (st : AppState) (todayDate typeId : String) (now : Nat)
    (txOk : Bool) : AppState :=
  if st.db = false then { st with error := some "Database not connected." }
  else if txOk then
    { st with
      store := handleCountStore st.store todayDate typeId st.userId now,
      error := none }
  else { st with error := some "Failed to record count. Please check connection." }

/-- `fetchWeeklySummary` as a state step. It returns immediately unless the
database and auth are ready; on a successful query it replaces the weekly
summary (leaving the error untouched); on a failed query it replaces only the
most-recent error message, leaving the summary as it was. -/
def fetchWeeklySummaryStep (st : AppState) (oneWeekAgoId : String)
    (qOk : Bool) : AppState :=
  if st.db = false ∨ st.isAuthReady = false then st
  else if qOk then
    { st with
      weeklySummary := fetchRecentDays oneWeekAgoId (st.store.map
        (fun kv => { id := kv.1, data := kv.2 })),
      loading := false }
  else
    { st with
      error := some "Failed to load weekly report data.",
      loading := false }

/-- A connected, authenticated state carrying a stale error message. -/
def staleErrorState : AppState :=
  { db := true, isAuthReady := true, userId := "u",
    error := some "Failed to record count. Please check connection.",
    weeklySummary := [], loading := false, store := [] }

/-- C5, as stated, is false: a successfully completed weekly fetch does not
clear the most-recent error message — only a successful increment does. -/
theorem c5_fetch_does_not_clear_error :
    (fetchWeeklySummaryStep staleErrorState "2024-01-01" true).error
      = some "Failed to record count. Please check connection." := by
  decide

/-- C5 (amended): a successfully committed increment clears the single
most-recent error message, a successfully completed weekly fetch leaves it
unchanged, a failed increment replaces it with the write-failure message, and
the error state never gates the ability to keep counting: the increment step
acts on the store identically whatever the current error is. -/
theorem c5_error_clearing (st : AppState) (d cid owa : String) (now : Nat)
    (hdb : st.db = true) (hauth : st.isAuthReady = true) :
    (handleCountStep st d cid now true).error = none ∧
    (fetchWeeklySummaryStep st owa true).error = st.error ∧
    (handleCountStep st d cid now false).error
      = some "Failed to record count. Please check connection." ∧
    (handleCountStep st d cid now true).store
      = handleCountStore st.store d cid st.userId now := by
  unfold handleCountStep fetchWeeklySummaryStep
  rw [hdb, hauth]
  simp

/-- C5 witness: the amended statement on the concrete stale-error state. -/
theorem c5_error_clearing_witness :
    staleErrorState.db = true ∧ staleErrorState.isAuthReady = true ∧
    ((handleCountStep staleErrorState "2024-01-01" "quick_fact" 5 true).error = none ∧
     (fetchWeeklySummaryStep staleErrorState "2024-01-02" true).error
        = staleErrorState.error ∧
     (handleCountStep staleErrorState "2024-01-01" "quick_fact" 5 false).error
        = some "Failed to record count. Please check connection." ∧
     (handleCountStep staleErrorState "2024-01-01" "quick_fact" 5 true).store
        = handleCountStore staleErrorState.store "2024-01-01" "quick_fact"
            staleErrorState.userId 5) :=
  ⟨rfl, rfl,
    c5_error_clearing staleErrorState "2024-01-01" "quick_fact" "2024-01-02" 5 rfl rfl⟩

/-- C6: a failed weekly fetch leaves the previously displayed summary exactly
as it was, surfaces the failure as the non-fatal fetch error message, and a
subsequent successful increment still goes through (and clears the error). -/
theorem c6_fetch_failure_preserves_summary (st : AppState) (owa d cid : String)
    (now : Nat) (hdb : st.db = true) (hauth : st.isAuthReady = true) :
    (fetchWeeklySummaryStep st owa false).weeklySummary = st.weeklySummary ∧
    (fetchWeeklySummaryStep st owa false).error
      = some "Failed to load weekly report data." ∧
    (handleCountStep (fetchWeeklySummaryStep st owa false) d cid now true).error
      = none ∧
    (handleCountStep (fetchWeeklySummaryStep st owa false) d cid now true).store
      = handleCountStore st.store d cid st.userId now := by
  unfold handleCountStep fetchWeeklySummaryStep
  rw [hdb, hauth]
  simp

/-- C6 witness: the failed fetch on the concrete connected state. -/
theorem c6_fetch_failure_witness :
    staleErrorState.db = true ∧ staleErrorState.isAuthReady = true ∧
    ((fetchWeeklySummaryStep staleErrorState "2024-01-02" false).weeklySummary
        = staleErrorState.weeklySummary ∧
     (fetchWeeklySummaryStep staleErrorState "2024-01-02" false).error
        = some "Failed to load weekly report data." ∧
     (handleCountStep (fetchWeeklySummaryStep staleErrorState "2024-01-02" false)
          "2024-01-01" "quick_fact" 5 true).error = none ∧
     (handleCountStep (fetchWeeklySummaryStep staleErrorState "2024-01-02" false)
          "2024-01-01" "quick_fact" 5 true).store
        = handleCountStore staleErrorState.store "2024-01-01" "quick_fact"
            staleErrorState.userId 5) :=
  ⟨rfl, rfl,
    c6_fetch_failure_preserves_summary staleErrorState "2024-01-02" "2024-01-01"
      "quick_fact" 5 rfl rfl⟩

/-- One row of the CSV export: the Date key first, then one key per category
display name in registry order, a missing count rendered as 0. -/
def dayRecord (e : WeekEntry) : JSRecord :=
  ("Date", JSVal.str e.date)
    :: QUESTION_TYPES.map (fun ty => (ty.name, JSVal.num ((e.counts ty.id).getD 0)))

/-- The trailing totals row pushed after the day rows: its Date column holds
the text TOTAL WEEKLY COUNT, then the per-category weekly totals. -/
def totalsRecord (days : List WeekEntry) : JSRecord :=
  ("Date", JSVal.str "TOTAL WEEKLY COUNT")
    :: QUESTION_TYPES.map
        (fun ty => (ty.name, JSVal.num (((weeklyTotals days).perCat ty.id).getD 0)))

/-- `handleExportCSV`: the CSV text handed to the download blob, paired with
the download filename built from today's date. -/
def handleExportCSV (days : List WeekEntry) (todayDate : String) : String × String :=
  (convertToCSV (days.map dayRecord ++ [totalsRecord days]),
   "ref_question_log_" ++ todayDate ++ ".csv")

/-- C8: the export builds one record per day whose keys are Date followed by
the category display names in registry order (missing counts rendered as 0),
appends a trailing totals record (its Date cell reads TOTAL WEEKLY COUNT)
holding the per-category totals over the summary, feeds the whole sequence to
the CSV formatter, and names the file ref_question_log_<today>.csv. -/
theorem c8_export (days : List WeekEntry) (today : String) :
    (handleExportCSV days today).2 = "ref_question_log_" ++ today ++ ".csv" ∧
    (handleExportCSV days today).1
      = convertToCSV (days.map dayRecord ++ [totalsRecord days]) ∧
    (∀ e : WeekEntry, (dayRecord e).map Prod.fst
        = "Date" :: QUESTION_TYPES.map Category.name) ∧
    (∀ e : WeekEntry, getField (dayRecord e) "Date" = some (JSVal.str e.date)) ∧
    (∀ e : WeekEntry, ∀ ty ∈ QUESTION_TYPES,
      getField (dayRecord e) ty.name = some (JSVal.num ((e.counts ty.id).getD 0))) ∧
    getField (totalsRecord days) "Date" = some (JSVal.str "TOTAL WEEKLY COUNT") ∧
    (∀ ty ∈ QUESTION_TYPES,
      getField (totalsRecord days) ty.name
        = some (JSVal.num (catSum days ty.id))) := by
  refine ⟨rfl, rfl, fun e => ?_, fun e => by simp [getField, dayRecord], ?_, ?_, ?_⟩
  · simp [dayRecord, List.map_map]
  · intro e ty hty
    simp only [QUESTION_TYPES, List.mem_cons, List.not_mem_nil, or_false] at hty
    rcases hty with rfl | rfl | rfl | rfl | rfl <;>
      simp [getField, dayRecord, QUESTION_TYPES, List.lookup_cons]
  · simp [getField, totalsRecord]
  · intro ty hty
    simp only [QUESTION_TYPES, List.mem_cons, List.not_mem_nil, or_false] at hty
    rcases hty with rfl | rfl | rfl | rfl | rfl <;>
      · simp [getField, totalsRecord, QUESTION_TYPES, List.lookup_cons]
        rw [weeklyTotals_perCat days _ (by decide)]

/-- C8 witness: the quick_fact column of the totals row on an empty summary. -/
theorem c8_export_witness :
    (({ id := "quick_fact", name := "Quick Fact/Ready Ref." } : Category)
        ∈ QUESTION_TYPES) ∧
    getField (totalsRecord [])
        ({ id := "quick_fact", name := "Quick Fact/Ready Ref." } : Category).name
      = some (JSVal.num (catSum []
          ({ id := "quick_fact", name := "Quick Fact/Ready Ref." } : Category).id)) :=
  ⟨by decide,
    (c8_export [] "2024-01-01").2.2.2.2.2.2 _ (by decide)⟩

end RefTally
